import Mathlib

/-!
Shallow embedding of the game "Survive or Die" (src/Survive-Die.py) and
verification of the specification claims about it.

Machine integers are modelled as `Int`/`Nat`, Python floats arising from
`random.random()` and the fixed decimal constants as exact rationals `ℚ`
(all arithmetic in the source is addition/multiplication/comparison of
small decimals, so the rational model is exact), Python strings as `String`,
lists as `List`, and `None`-able fields as `Option`. Fallible I/O is
modelled by threading an explicit store/log state plus a boolean describing
whether the underlying write succeeds.
-/

namespace SurviveOrDie

/-- The three numbered options offered at each decision prompt
(`ask_int` with valid set \x7b1,2,3\x7d). -/
inductive Choice
  | c1
  | c2
  | c3
deriving DecidableEq, Repr

/-- The mutable player object (class `Player`): `char` is `None` until the
intro assigns it, `inventory` is an ordered list, `stage` tracks progress
for save/load. In the source file the Arabic character names are the empty
string literal `""`, which we reproduce verbatim. -/
structure Player where
  name : String
  hp : ℤ
  score : ℚ
  char : Option String
  inventory : List String
  lang : String
  stage : ℕ
deriving DecidableEq, Repr

/-- Python membership test `player.char in (s1, s2, ...)`; `None` is not
equal to any string. -/
def charIn (c : Option String) (l : List String) : Bool :=
  match c with
  | none => false
  | some s => l.contains s

/-- Constructor `Player.__init__(name, lang)`: hp 3, score 0, no character,
empty inventory, stage 0. -/
def Player.init (name lang : String) : Player :=
  ⟨name, 3, 0, none, [], lang, 0⟩

/-- The JSON object written by `Player.to_dict`, field by field. Each field
is `Option`al because `from_dict` reads the dictionary with `d.get` and a
default, so a stored object may lack keys. -/
structure PDict where
  name : Option String
  hp : Option ℤ
  score : Option ℚ
  char : Option (Option String)
  inventory : Option (List String)
  lang : Option String
  stage : Option ℕ
deriving DecidableEq, Repr

/-- `Player.to_dict`: every field is written. -/
def Player.to_dict (p : Player) : PDict :=
  ⟨some p.name, some p.hp, some p.score, some p.char, some p.inventory,
    some p.lang, some p.stage⟩

/-- `Player.from_dict`: `d.get` with the defaults of the source
(`"player"`, hp 3, score 0, char `None`, empty inventory, `"en"`, stage 0). -/
def Player.from_dict (d : PDict) : Player :=
  { name := d.name.getD "player"
    hp := d.hp.getD 3
    score := d.score.getD 0
    char := d.char.getD none
    inventory := d.inventory.getD []
    lang := d.lang.getD "en"
    stage := d.stage.getD 0 }

/-- State of the checkpoint file `sod_checkpoint.json`: absent, present but
not valid JSON for a record, or a stored record. -/
inductive StoreState
  | absent
  | malformed
  | valid (d : PDict)
deriving DecidableEq, Repr

/-- `save_checkpoint`: attempts to overwrite the checkpoint file with
`player.to_dict()`; the `try/except` returns `True` on success and `False`
on an I/O failure (`ioOk` models whether the write raises), leaving the
file as it was on failure. -/
def save_checkpoint (p : Player) (ioOk : Bool) (st : StoreState) :
    Bool × StoreState :=
  if ioOk then (true, .valid p.to_dict) else (false, st)

/-- `load_checkpoint`: `None` when the file does not exist, `None` when
reading/parsing raises (the `except` clause), otherwise
`Player.from_dict` of the stored object. -/
def load_checkpoint (st : StoreState) : Option Player :=
  match st with
  | .absent => none
  | .malformed => none
  | .valid d => some (Player.from_dict d)

/-- One line of the results file: name, character, outcome tag, truncated
final score, hp (the timestamp is presentation only). -/
structure LogEntry where
  name : String
  char : Option String
  tag : String
  score : ℤ
  hp : ℤ
deriving DecidableEq, Repr

/-- Python `int()` truncation toward zero of a rational. -/
def ratTrunc (q : ℚ) : ℤ :=
  if 0 ≤ q then ⌊q⌋ else ⌈q⌉

/-- `append_result`: appends one formatted line to the results file,
returning `True`, or swallows the exception and returns `False` with the
log unchanged. -/
def append_result (p : Player) (tag : String) (finalScore : ℚ) (ioOk : Bool)
    (log : List LogEntry) : Bool × List LogEntry :=
  if ioOk then (true, log ++ [⟨p.name, p.char, tag, ratTrunc finalScore, p.hp⟩])
  else (false, log)

/-- Branch taken by a non-boss resolver: the green "+points" message, the
red "-1 HP" message, or the yellow no-risk message. -/
inductive Branch
  | success
  | failure
  | neutral
deriving DecidableEq, Repr

/-- Archetype luck bonus of `level_town`: `+0.15` for
`("Trickster", "")`, `+0.05` for `("Warrior", "")`, else `+0.08`. -/
def townLuckBonus (c : Option String) : ℚ :=
  if charIn c ["Trickster", ""] then (15/100 : ℚ)
  else if charIn c ["Warrior", ""] then (5/100 : ℚ)
  else (8/100 : ℚ)

/-- `level_town`: sets `stage = max(stage, 1)`, adjusts the draw by the
archetype bonus, then resolves the chosen option. Option 1 also succeeds
outright for `("Scholar", "")` characters. -/
def level_town (p0 : Player) (c : Choice) (d : ℚ) : Player × Branch :=
  let p := { p0 with stage := max p0.stage 1 }
  let luck := d + townLuckBonus p.char
  match c with
  | .c1 =>
      if luck > (50/100 : ℚ) ∨ charIn p.char ["Scholar", ""] then
        ({ p with score := p.score + 10,
                  inventory := p.inventory ++ ["Canned Food"] }, .success)
      else ({ p with hp := p.hp - 1 }, .failure)
  | .c2 =>
      if luck > (45/100 : ℚ) then
        ({ p with score := p.score + 5,
                  inventory := p.inventory ++ ["Medkit"] }, .success)
      else ({ p with hp := p.hp - 1 }, .failure)
  | .c3 => ({ p with score := p.score + 1 }, .neutral)

/-- `level_desert`: stage 2; `+0.1` luck when "Canned Food" is held. -/
def level_desert (p0 : Player) (c : Choice) (d : ℚ) : Player × Branch :=
  let p := { p0 with stage := max p0.stage 2 }
  let luck := d + (if p.inventory.contains "Canned Food" then (10/100 : ℚ) else 0)
  match c with
  | .c1 =>
      if luck > (50/100 : ℚ) then
        ({ p with score := p.score + 8,
                  inventory := p.inventory ++ ["Oasis Water"] }, .success)
      else ({ p with hp := p.hp - 1 }, .failure)
  | .c2 =>
      if luck > (60/100 : ℚ) then
        ({ p with score := p.score + 10,
                  inventory := p.inventory ++ ["Spare Parts"] }, .success)
      else ({ p with hp := p.hp - 1 }, .failure)
  | .c3 => ({ p with score := p.score + 2 }, .neutral)

/-- `level_lab`: stage 3; `+0.08` luck when "Medkit" is held. -/
def level_lab (p0 : Player) (c : Choice) (d : ℚ) : Player × Branch :=
  let p := { p0 with stage := max p0.stage 3 }
  let luck := d + (if p.inventory.contains "Medkit" then (8/100 : ℚ) else 0)
  match c with
  | .c1 =>
      if luck > (55/100 : ℚ) then
        ({ p with score := p.score + 12,
                  inventory := p.inventory ++ ["Energy Cell"] }, .success)
      else ({ p with hp := p.hp - 1 }, .failure)
  | .c2 =>
      if luck > (50/100 : ℚ) then
        ({ p with score := p.score + 15,
                  inventory := p.inventory ++ ["Vaccine Sample"] }, .success)
      else ({ p with hp := p.hp - 1 }, .failure)
  | .c3 =>
      if luck > (40/100 : ℚ) then
        ({ p with score := p.score + 6,
                  inventory := p.inventory ++ ["Toolkit"] }, .success)
      else ({ p with hp := p.hp - 1 }, .failure)

/-- `level_forest`: stage 4; `+0.07` luck when "Oasis Water" is held. -/
def level_forest (p0 : Player) (c : Choice) (d : ℚ) : Player × Branch :=
  let p := { p0 with stage := max p0.stage 4 }
  let luck := d + (if p.inventory.contains "Oasis Water" then (7/100 : ℚ) else 0)
  match c with
  | .c1 =>
      if luck > (50/100 : ℚ) then
        ({ p with score := p.score + 9,
                  inventory := p.inventory ++ ["Fresh Water"] }, .success)
      else ({ p with hp := p.hp - 1 }, .failure)
  | .c2 => ({ p with score := p.score + 3 }, .neutral)
  | .c3 =>
      if luck > (55/100 : ℚ) then
        ({ p with score := p.score + 11,
                  inventory := p.inventory ++ ["Game Meat"] }, .success)
      else ({ p with hp := p.hp - 1 }, .failure)

/-- Character modifier of `boss_final`: the `("Warrior", "")` /
`("Scholar", "")` / other cascade over the chosen action. -/
def boss_char_mod (c : Option String) (choice : Choice) : ℚ :=
  if charIn c ["Warrior", ""] then (if choice = .c1 then (25/100 : ℚ) else (5/100 : ℚ))
  else if charIn c ["Scholar", ""] then (if choice = .c2 then (25/100 : ℚ) else (5/100 : ℚ))
  else (if choice = .c2 then (25/100 : ℚ) else (10/100 : ℚ))

/-- Inventory bonus of `boss_final`: Vaccine Sample `+0.2`, Game Meat or
Canned Food `+0.05` (non-stacking), Energy Cell `+0.08`. -/
def boss_inventory_bonus (inv : List String) : ℚ :=
  (if inv.contains "Vaccine Sample" then (20/100 : ℚ) else 0)
    + (if inv.contains "Game Meat" ∨ inv.contains "Canned Food" then (5/100 : ℚ) else 0)
    + (if inv.contains "Energy Cell" then (8/100 : ℚ) else 0)

/-- The `final_score` computed by `boss_final`:
`player.score + (base_roll + char_mod + inventory_bonus) * 35`. -/
def boss_final_score (p : Player) (choice : Choice) (d : ℚ) : ℚ :=
  p.score + (d + boss_char_mod p.char choice + boss_inventory_bonus p.inventory) * 35

/-- `boss_final`: sets `stage = max(stage, 5)`, computes `final_score`, and
resolves the chosen action against its threshold ladder, returning the
updated player, the outcome tag and the final score. -/
def boss_final (p0 : Player) (choice : Choice) (d : ℚ) :
    Player × String × ℚ :=
  let p := { p0 with stage := max p0.stage 5 }
  let fs := boss_final_score p choice d
  match choice with
  | .c1 =>
      let thresh : ℚ := if charIn p.char ["Warrior", ""] then 45 else 60
      if fs ≥ thresh then (p, "victory_force", fs) else (p, "defeat_force", fs)
  | .c2 =>
      let thresh : ℚ :=
        if charIn p.char ["Trickster", "", "Scholar", ""] then 48 else 62
      if fs ≥ thresh then (p, "victory_cunning", fs)
      else (p, "defeat_cunning", fs)
  | .c3 =>
      if fs ≥ 75 then (p, "victory_alliance", fs)
      else if fs ≥ 45 then (p, "compromise", fs)
      else (p, "betrayed", fs)

/-- Identifier of one scene of the fixed `levels` list of `main`, plus the
final boss scene. -/
inductive StageId
  | town
  | desert
  | lab
  | forest
  | boss
deriving DecidableEq, Repr

/-- The `levels` list of `main`, in order. Note that `boss_final` is its
fifth element and is additionally called again after the loop. -/
def levelsList : List StageId :=
  [.town, .desert, .lab, .forest, .boss]

/-- Dispatch of `level_func(player)` inside the loop of `main`: the player
after one scene (the tag/score pair returned by `boss_final` is discarded
there, exactly as the loop discards it). -/
def runLevel (s : StageId) (p : Player) (c : Choice) (d : ℚ) : Player :=
  match s with
  | .town => (level_town p c d).1
  | .desert => (level_desert p c d).1
  | .lab => (level_lab p c d).1
  | .forest => (level_forest p c d).1
  | .boss => (boss_final p c d).1

/-- Observable persistence/control events of a run, in order of
occurrence: the intro scene, a checkpoint write, one scene resolution, one
results-file append, one checkpoint-file removal. -/
inductive Eff
  | ranIntro
  | saved
  | ranLevel (s : StageId)
  | appended
  | deleted
deriving DecidableEq, Repr

/-- How a run terminates: the normal ending path of `main` (with the tag
passed to `endings`), or the early `return` after hp exhaustion. -/
inductive Outcome
  | ended (tag : String)
  | aborted
deriving DecidableEq, Repr

/-- The player decisions and the random draw of one loop iteration of
`main`: answer to the checkpoint-save prompt, scene choice, the uniform
draw consumed by the scene, and the answer to the reload prompt should hp
be exhausted afterwards. -/
structure IterInput where
  saveAns : Bool
  choice : Choice
  draw : ℚ
  reloadAns : Bool
deriving DecidableEq, Repr

/-- Default input used when a script runs out (never reached on full
scripts). -/
def defaultIter : IterInput := ⟨false, .c3, 0, false⟩

/-- Result of a run of `main`: outcome, chronological event list, the list
of player states reached (initial state, after each scene, after each
reload), final checkpoint-file state and final results log. -/
structure RunResult where
  outcome : Outcome
  effects : List Eff
  states : List Player
  store : StoreState
  log : List LogEntry
deriving DecidableEq, Repr

/-- Code after the loop of `main`: the second call of `boss_final`, the
`endings` prompt (append to the results file when answered yes), and the
removal of the checkpoint file when it exists. The effect/state lists
record the events and player states of this final part in order. -/
def finishRun (p : Player) (bc : Choice) (bd : ℚ) (logAns : Bool)
    (st : StoreState) (log : List LogEntry) : RunResult :=
  let r := boss_final p bc bd
  let p2 := r.1
  let tag := r.2.1
  let fs := r.2.2
  let log1 := if logAns then (append_result p2 tag fs true log).2 else log
  let effs := [Eff.ranLevel .boss] ++ (if logAns then [Eff.appended] else [])
  if st = .absent then ⟨.ended tag, effs, [p2], st, log1⟩
  else ⟨.ended tag, effs ++ [Eff.deleted], [p2], .absent, log1⟩

/-- The `for idx, level_func in enumerate(levels)` loop of `main`:
checkpoint-save prompt, scene resolution, hp check with the reload /
abort decision, then the code after the loop. The returned effect and
state lists are in chronological order (this iteration first, then the
rest of the run). -/
def runLoop : List StageId → List IterInput → Player → StoreState →
    List LogEntry → Choice → ℚ → Bool → RunResult
  | [], _, p, st, log, bc, bd, la => finishRun p bc bd la st log
  | s :: rest, script, p, st, log, bc, bd, la =>
      let i := script.headD defaultIter
      let st1 := if i.saveAns then (save_checkpoint p true st).2 else st
      let pre : List Eff :=
        if i.saveAns then [Eff.saved, Eff.ranLevel s] else [Eff.ranLevel s]
      let p1 := runLevel s p i.choice i.draw
      if p1.hp ≤ 0 then
        if i.reloadAns then
          match load_checkpoint st1 with
          | some q =>
              let r := runLoop rest script.tail q st1 log bc bd la
              { r with effects := pre ++ r.effects,
                       states := [p1, q] ++ r.states }
          | none => ⟨.aborted, pre, [p1], st1, log⟩
        else ⟨.aborted, pre, [p1], st1, log⟩
      else
        let r := runLoop rest script.tail p1 st1 log bc bd la
        { r with effects := pre ++ r.effects, states := [p1] ++ r.states }

/-- Character string assigned by `intro`: the English names for English,
the (empty-string) Arabic literals of the source otherwise. -/
def charOf (lang : String) (c : Choice) : String :=
  if lang = "ar" then ""
  else match c with
       | .c1 => "Trickster"
       | .c2 => "Warrior"
       | .c3 => "Scholar"

/-- Player at the start of a run of `main`: the loaded checkpoint with the
freshly chosen language when the file exists, the player accepts the load
and loading succeeds; otherwise a fresh `Player` whose empty name falls
back to the per-language default. -/
def initialPlayer (st0 : StoreState) (tryLoad : Bool) (name lang : String) :
    Player :=
  match (if st0 ≠ StoreState.absent ∧ tryLoad then load_checkpoint st0
         else none) with
  | some p => { p with lang := lang }
  | none =>
      Player.init (if name = "" then (if lang = "en" then "Player" else "")
                   else name) lang

/-- Player entering the level loop: `intro` assigns the chosen character
exactly when the starting player is at stage 0. -/
def introPlayer (st0 : StoreState) (tryLoad : Bool) (name lang : String)
    (introChoice : Choice) : Player :=
  let p0 := initialPlayer st0 tryLoad name lang
  if p0.stage = 0 then { p0 with char := some (charOf p0.lang introChoice) }
  else p0

/-- Events of the pre-loop part of `main`: the intro runs exactly when the
starting player is at stage 0. -/
def introEffs (st0 : StoreState) (tryLoad : Bool) (name lang : String) :
    List Eff :=
  if (initialPlayer st0 tryLoad name lang).stage = 0 then [Eff.ranIntro] else []

/-- The run portion of `main` after the language prompt: optional
checkpoint load, intro for a stage-0 player, the five-scene loop, and the
ending code. `script` supplies the per-iteration decisions, `bc`/`bd` the
choice and draw of the post-loop `boss_final` call, `logAns` the
save-to-results answer. -/
def runMain (st0 : StoreState) (tryLoad : Bool) (name lang : String)
    (introChoice : Choice) (script : List IterInput) (bc : Choice) (bd : ℚ)
    (logAns : Bool) (log0 : List LogEntry) : RunResult :=
  let r := runLoop levelsList script
    (introPlayer st0 tryLoad name lang introChoice) st0 log0 bc bd logAns
  { r with effects := introEffs st0 tryLoad name lang ++ r.effects,
           states := introPlayer st0 tryLoad name lang introChoice :: r.states }

/-- Scenes executed by a run, in execution order. -/
def RunResult.levelsRan (r : RunResult) : List StageId :=
  r.effects.filterMap fun e =>
    match e with
    | .ranLevel s => some s
    | _ => none

/-- The four non-boss scenes. -/
inductive NBStage
  | town
  | desert
  | lab
  | forest
deriving DecidableEq, Repr

/-- Uniform view of the four non-boss resolvers. -/
def resolveNB : NBStage → Player → Choice → ℚ → Player × Branch
  | .town => level_town
  | .desert => level_desert
  | .lab => level_lab
  | .forest => level_forest

/-- Adjusted luck value of each non-boss scene:
`luck = draw + archetype bonus + inventory bonus` exactly as each resolver
computes it (the town scene has only an archetype bonus, the others only
an inventory bonus). -/
def luckOf : NBStage → Player → ℚ → ℚ
  | .town, p, d => d + townLuckBonus p.char
  | .desert, p, d => d + (if p.inventory.contains "Canned Food" then (10/100 : ℚ) else 0)
  | .lab, p, d => d + (if p.inventory.contains "Medkit" then (8/100 : ℚ) else 0)
  | .forest, p, d => d + (if p.inventory.contains "Oasis Water" then (7/100 : ℚ) else 0)

/-- Per-choice success threshold of each non-boss scene, read off the
resolvers; the always-successful options (town 3, desert 3, forest 2) get
the trivial threshold `-1`, which every luck value exceeds. -/
def thOf : NBStage → Choice → ℚ
  | .town, .c1 => (50/100 : ℚ)
  | .town, .c2 => (45/100 : ℚ)
  | .town, .c3 => -1
  | .desert, .c1 => (50/100 : ℚ)
  | .desert, .c2 => (60/100 : ℚ)
  | .desert, .c3 => -1
  | .lab, .c1 => (55/100 : ℚ)
  | .lab, .c2 => (50/100 : ℚ)
  | .lab, .c3 => (40/100 : ℚ)
  | .forest, .c1 => (50/100 : ℚ)
  | .forest, .c2 => -1
  | .forest, .c3 => (55/100 : ℚ)

/-- Modelled from the spec (section 4.1): the three threshold ladders of
the boss stage in the words of the specification, with the amended count
of seven terminal tags; `assaultMatched` / `negotiationMatched` say
whether the character matches the chosen action. -/
def ladder (assaultMatched negotiationMatched : Bool) (c : Choice)
    (fs : ℚ) : String :=
  match c with
  | .c1 => if fs ≥ (if assaultMatched then 45 else 60) then "victory_force"
           else "defeat_force"
  | .c2 => if fs ≥ (if negotiationMatched then 48 else 62) then "victory_cunning"
           else "defeat_cunning"
  | .c3 => if fs ≥ 75 then "victory_alliance"
           else if fs ≥ 45 then "compromise"
           else "betrayed"

/-- The terminal outcome tags the boss resolution can return. -/
def bossTags : List String :=
  ["victory_force", "defeat_force", "victory_cunning", "defeat_cunning",
   "victory_alliance", "compromise", "betrayed"]

/-- Invariant on the checkpoint file used for the hp-bound proof: any
stored record restores to a player with hp between 1 and 3. -/
def StInv (st : StoreState) : Prop :=
  ∀ d, st = StoreState.valid d →
    1 ≤ (Player.from_dict d).hp ∧ (Player.from_dict d).hp ≤ 3

/-- Example player of the boss test vectors of the spec: Warrior, score 0,
empty inventory. -/
def pC5a : Player := ⟨"hero", 3, 0, some "Warrior", [], "en", 0⟩

/-- Same player with score 30. -/
def pC5b : Player := { pC5a with score := 30 }

/-- Example warrior used in counterexamples. -/
def pWar : Player := ⟨"w", 3, 0, some "Warrior", [], "en", 0⟩

/-- Example scholar used in counterexamples. -/
def pSch : Player := ⟨"s", 3, 0, some "Scholar", [], "en", 0⟩

/-- Boss-input player with a given character and score, used to reach each
terminal tag. -/
def pTag (ch : Option String) (sc : ℚ) : Player :=
  ⟨"p", 3, sc, ch, [], "en", 0⟩

/-- Stored record at stage 3 (the Lab scene), used to test resuming. -/
def pStage3 : Player := ⟨"Zed", 3, 20, some "Warrior", [], "en", 3⟩

/-- Script of a full run: never save, always take option 3, draw (9/10 : ℚ),
never reload. -/
def c1Script : List IterInput := List.replicate 5 ⟨false, .c3, (9/10 : ℚ), false⟩

/-- Script of a run that dies at the third scene: never save, always take
option 1, draw 0, decline reload. -/
def abortScript : List IterInput := List.replicate 5 ⟨false, .c1, 0, false⟩

/-- C5: boss resolution with draw 1/2, character Warrior, choice 1 and
empty inventory has character modifier 25/100, inventory bonus 0 and final
score `score + 2625/100` (26.25); with score 0 the final score 26.25 is
below the matched Warrior/assault threshold 45 and the tag is
"defeat_force", while with score 30 the final score 56.25 is at least 45
and the tag is "victory_force". -/
theorem C5_boss_vectors :
    boss_char_mod (some "Warrior") .c1 = (25/100 : ℚ) ∧
    boss_inventory_bonus [] = 0 ∧
    boss_final_score pC5a .c1 (1/2) = pC5a.score + (2625/100 : ℚ) ∧
    boss_final_score pC5a .c1 (1/2) = (2625/100 : ℚ) ∧
    (boss_final pC5a .c1 (1/2)).2.1 = "defeat_force" ∧
    boss_final_score pC5b .c1 (1/2) = (5625/100 : ℚ) ∧
    (boss_final pC5b .c1 (1/2)).2.1 = "victory_force" := by
  norm_num [boss_char_mod, boss_inventory_bonus, boss_final_score, boss_final,
    charIn, pC5a, pC5b]

/-- C6: saving any player record as a checkpoint and loading the
checkpoint returns a record equal to the original, every field (name, hp,
score, char, inventory, lang, stage) and the inventory order included. -/
theorem C6_roundtrip (p : Player) (st : StoreState) :
    load_checkpoint (save_checkpoint p true st).2 = some p := by
  rfl

/-- C9: persistence degrades gracefully: `save_checkpoint` reports failure
as a boolean leaving the file untouched and success as `true`;
`load_checkpoint` returns `none` both for a missing file and for malformed
content; `append_result` swallows a write failure, reporting `false` with
the log unchanged, and reports success as `true`. -/
theorem C9_graceful (p : Player) (st : StoreState) (tag : String) (fs : ℚ)
    (log : List LogEntry) :
    save_checkpoint p false st = (false, st) ∧
    (save_checkpoint p true st).1 = true ∧
    load_checkpoint .absent = none ∧
    load_checkpoint .malformed = none ∧
    append_result p tag fs false log = (false, log) ∧
    (append_result p tag fs true log).1 = true := by
  exact ⟨rfl, rfl, rfl, rfl, rfl, rfl⟩

/-- C2: the claim that the boss resolution always returns one of only six
terminal outcome tags is false: no set of at most six tags covers all
outputs, because seven pairwise distinct tags are reachable (each witnessed
at a concrete player, choice and in-range draw). -/
theorem C2_counterexample :
    ¬ ∃ S : Finset String, S.card ≤ 6 ∧
      ∀ (p : Player) (c : Choice) (d : ℚ), 0 ≤ d → d < 1 →
        (boss_final p c d).2.1 ∈ S := by
  rintro ⟨S, hcard, hmem⟩
  have e1 : (boss_final (pTag (some "Warrior") 50) .c1 0).2.1 = "victory_force" := by
    simp [boss_final, boss_final_score, boss_char_mod, boss_inventory_bonus,
      charIn, pTag]
    norm_num
  have e2 : (boss_final (pTag (some "Warrior") 0) .c1 0).2.1 = "defeat_force" := by
    simp [boss_final, boss_final_score, boss_char_mod, boss_inventory_bonus,
      charIn, pTag]
    norm_num
  have e3 : (boss_final (pTag (some "Scholar") 50) .c2 0).2.1 = "victory_cunning" := by
    simp [boss_final, boss_final_score, boss_char_mod, boss_inventory_bonus,
      charIn, pTag]
    norm_num
  have e4 : (boss_final (pTag (some "Scholar") 0) .c2 0).2.1 = "defeat_cunning" := by
    simp [boss_final, boss_final_score, boss_char_mod, boss_inventory_bonus,
      charIn, pTag]
    norm_num
  have e5 : (boss_final (pTag (some "Warrior") 80) .c3 0).2.1 = "victory_alliance" := by
    simp [boss_final, boss_final_score, boss_char_mod, boss_inventory_bonus,
      charIn, pTag]
    norm_num
  have e6 : (boss_final (pTag (some "Warrior") 50) .c3 0).2.1 = "compromise" := by
    simp [boss_final, boss_final_score, boss_char_mod, boss_inventory_bonus,
      charIn, pTag]
    norm_num
  have e7 : (boss_final (pTag (some "Warrior") 0) .c3 0).2.1 = "betrayed" := by
    simp [boss_final, boss_final_score, boss_char_mod, boss_inventory_bonus,
      charIn, pTag]
    norm_num
  have h1 := hmem (pTag (some "Warrior") 50) .c1 0 le_rfl (by norm_num)
  have h2 := hmem (pTag (some "Warrior") 0) .c1 0 le_rfl (by norm_num)
  have h3 := hmem (pTag (some "Scholar") 50) .c2 0 le_rfl (by norm_num)
  have h4 := hmem (pTag (some "Scholar") 0) .c2 0 le_rfl (by norm_num)
  have h5 := hmem (pTag (some "Warrior") 80) .c3 0 le_rfl (by norm_num)
  have h6 := hmem (pTag (some "Warrior") 50) .c3 0 le_rfl (by norm_num)
  have h7 := hmem (pTag (some "Warrior") 0) .c3 0 le_rfl (by norm_num)
  rw [e1] at h1; rw [e2] at h2; rw [e3] at h3; rw [e4] at h4
  rw [e5] at h5; rw [e6] at h6; rw [e7] at h7
  have hsub : ({"victory_force", "defeat_force", "victory_cunning",
      "defeat_cunning", "victory_alliance", "compromise", "betrayed"} :
      Finset String) ⊆ S := by
    intro x hx
    simp only [Finset.mem_insert, Finset.mem_singleton] at hx
    rcases hx with rfl | rfl | rfl | rfl | rfl | rfl | rfl <;> assumption
  have h7card : 7 ≤ S.card := by
    have hc := Finset.card_le_card hsub
    have he : ({"victory_force", "defeat_force", "victory_cunning",
        "defeat_cunning", "victory_alliance", "compromise", "betrayed"} :
        Finset String).card = 7 := by decide
    omega
  omega

/-- C2 amended: for every player state, boss choice and draw, the boss
resolution returns exactly one of SEVEN terminal outcome tags, given by
the selected action ladder over the final score with the fixed breakpoints
45/60 for assault, 48/62 for negotiation and 45/75 for alliance with an
intermediate compromise band (the match conditions being the Warrior check
for assault and the Trickster-or-Scholar check for negotiation). -/
theorem C2_boss_ladder (p : Player) (c : Choice) (d : ℚ) :
    (boss_final p c d).2.1 =
      ladder (charIn p.char ["Warrior", ""])
        (charIn p.char ["Trickster", "", "Scholar", ""]) c
        (boss_final_score p c d) ∧
    (boss_final p c d).2.1 ∈ bossTags := by
  cases c <;> cases p <;>
    simp only [boss_final, ladder, bossTags, boss_final_score] <;>
    split_ifs <;> simp_all

/-- C7: in every stage resolution, for every choice, player state and
draw, hit points decrease by exactly 1 on a declared failure branch and
never decrease on a success branch, and the score never decreases (the
boss resolution changes neither hit points nor score). -/
theorem C7_deltas :
    (∀ (s : NBStage) (p : Player) (c : Choice) (d : ℚ),
      ((resolveNB s p c d).2 = .failure → (resolveNB s p c d).1.hp = p.hp - 1) ∧
      ((resolveNB s p c d).2 = .success → p.hp ≤ (resolveNB s p c d).1.hp) ∧
      p.score ≤ (resolveNB s p c d).1.score) ∧
    (∀ (p : Player) (c : Choice) (d : ℚ),
      (boss_final p c d).1.hp = p.hp ∧ (boss_final p c d).1.score = p.score) := by
  constructor
  · intro s p c d
    cases s <;> cases c <;> cases p <;>
      simp only [resolveNB, level_town, level_desert, level_lab, level_forest] <;>
      (try split_ifs) <;>
      refine ⟨fun h => ?_, fun h => ?_, ?_⟩ <;>
      simp_all
  · intro p c d
    cases c <;> cases p <;> simp only [boss_final] <;> (try split_ifs) <;> simp

/-- C7 witness: the delta properties evaluated at the town scene, a
Warrior, choice 1 and draw 1/10, and at the boss with the same player. -/
theorem C7_deltas_witness :
    (((resolveNB .town pWar .c1 (1/10)).2 = .failure →
      (resolveNB .town pWar .c1 (1/10)).1.hp = pWar.hp - 1) ∧
     ((resolveNB .town pWar .c1 (1/10)).2 = .success →
      pWar.hp ≤ (resolveNB .town pWar .c1 (1/10)).1.hp) ∧
     pWar.score ≤ (resolveNB .town pWar .c1 (1/10)).1.score) ∧
    ((boss_final pWar .c1 (1/10)).1.hp = pWar.hp ∧
     (boss_final pWar .c1 (1/10)).1.score = pWar.score) :=
  ⟨C7_deltas.1 .town pWar .c1 (1/10), C7_deltas.2 pWar .c1 (1/10)⟩

/-- C4: the claim that every non-boss resolution is decided solely by
comparing the adjusted luck value with a per-choice threshold is false: no
assignment of thresholds can explain the town scene, where a Warrior with
draw 34/100 (luck 39/100) fails while a Scholar with draw 30/100 (luck
38/100) succeeds, because choice 1 of the town scene lets a Scholar
succeed regardless of luck. -/
theorem C4_counterexample :
    ¬ ∃ t : NBStage → Choice → ℚ,
      ∀ (s : NBStage) (c : Choice) (p : Player) (d : ℚ), 0 ≤ d → d < 1 →
        (luckOf s p d > t s c →
          (resolveNB s p c d).1.hp = p.hp ∧
          p.score < (resolveNB s p c d).1.score) ∧
        (¬ luckOf s p d > t s c →
          (resolveNB s p c d).1.hp = p.hp - 1 ∧
          (resolveNB s p c d).1.score = p.score) := by
  rintro ⟨t, ht⟩
  have lW : luckOf .town pWar (34/100) = 39/100 := by
    simp [luckOf, townLuckBonus, charIn, pWar]
    norm_num
  have lS : luckOf .town pSch (30/100) = 38/100 := by
    simp [luckOf, townLuckBonus, charIn, pSch]
    norm_num
  have eW : (resolveNB .town pWar .c1 (34/100)).1.hp = 2 := by
    simp [resolveNB, level_town, townLuckBonus, charIn, pWar]
    norm_num
  have eS : (resolveNB .town pSch .c1 (30/100)).1.hp = 3 := by
    simp [resolveNB, level_town, townLuckBonus, charIn, pSch]
  have hW := ht .town .c1 pWar (34/100) (by norm_num) (by norm_num)
  have hS := ht .town .c1 pSch (30/100) (by norm_num) (by norm_num)
  rw [lW] at hW
  rw [lS] at hS
  have htW : ¬ ((39/100 : ℚ) > t .town .c1) := by
    intro hgt
    have := (hW.1 hgt).1
    rw [eW] at this
    simp [pWar] at this
  have htS : (38/100 : ℚ) > t .town .c1 := by
    by_contra hng
    have := (hS.2 hng).1
    rw [eS] at this
    simp [pSch] at this
  push_neg at htW
  linarith

/-- C4 amended: for every non-boss stage, choice, player state and
non-negative draw, EXCEPT choice 1 of the town scene played by a Scholar
character (which succeeds regardless of luck), the outcome is decided
solely by comparing the adjusted luck value with the per-choice threshold
(the guaranteed-success options town 3, desert 3 and forest 2 having the
trivial threshold −1): above the threshold the success delta applies
(score strictly increases, hit points unchanged), otherwise exactly one
hit point is lost and the score is unchanged. -/
theorem C4_thresholds (s : NBStage) (c : Choice) (p : Player) (d : ℚ)
    (hd : 0 ≤ d)
    (hexc : ¬ (s = .town ∧ c = .c1 ∧ charIn p.char ["Scholar", ""] = true)) :
    (luckOf s p d > thOf s c →
      (resolveNB s p c d).1.hp = p.hp ∧
      p.score < (resolveNB s p c d).1.score) ∧
    (luckOf s p d ≤ thOf s c →
      (resolveNB s p c d).1.hp = p.hp - 1 ∧
      (resolveNB s p c d).1.score = p.score) := by
  have hb : 0 ≤ townLuckBonus p.char := by
    unfold townLuckBonus
    split_ifs <;> norm_num
  cases s <;> cases c <;> cases p <;>
    simp_all only [resolveNB, level_town, level_desert, level_lab, level_forest,
      luckOf, thOf] <;>
    (try split_ifs) <;>
    constructor <;>
    intro h <;>
    simp_all <;>
    linarith

/-- C4 witness: the threshold property evaluated at the lab scene, a
Warrior, choice 1 and draw 9/10. -/
theorem C4_thresholds_witness :
    (luckOf .lab pWar (9/10) > thOf .lab .c1 →
      (resolveNB .lab pWar .c1 (9/10)).1.hp = pWar.hp ∧
      pWar.score < (resolveNB .lab pWar .c1 (9/10)).1.score) ∧
    (luckOf .lab pWar (9/10) ≤ thOf .lab .c1 →
      (resolveNB .lab pWar .c1 (9/10)).1.hp = pWar.hp - 1 ∧
      (resolveNB .lab pWar .c1 (9/10)).1.score = pWar.score) :=
  C4_thresholds .lab .c1 pWar (9/10) (by norm_num) (by decide)

theorem boss_final_keeps_hp (p : Player) (c : Choice) (d : ℚ) :
    (boss_final p c d).1.hp = p.hp := by
  cases c <;> simp only [boss_final] <;> split_ifs <;> rfl

theorem runLevel_hp_bounds (s : StageId) (p : Player) (c : Choice) (d : ℚ) :
    p.hp - 1 ≤ (runLevel s p c d).hp ∧ (runLevel s p c d).hp ≤ p.hp := by
  cases s <;> cases c <;>
    simp only [runLevel, level_town, level_desert, level_lab, level_forest,
      boss_final] <;>
    (try split_ifs) <;> constructor <;> simp

theorem from_to_dict (p : Player) : Player.from_dict p.to_dict = p := rfl

theorem StInv_save (p : Player) (st : StoreState) (h1 : 1 ≤ p.hp)
    (h3 : p.hp ≤ 3) : StInv (save_checkpoint p true st).2 := by
  intro d hd
  simp only [save_checkpoint, if_true] at hd
  simp only [StoreState.valid.injEq] at hd
  rw [← hd, from_to_dict]
  exact ⟨h1, h3⟩

theorem load_bounds (st : StoreState) (q : Player) (hst : StInv st)
    (h : load_checkpoint st = some q) : 1 ≤ q.hp ∧ q.hp ≤ 3 := by
  cases st with
  | absent => simp [load_checkpoint] at h
  | malformed => simp [load_checkpoint] at h
  | valid d =>
      simp only [load_checkpoint, Option.some.injEq] at h
      rw [← h]
      exact hst d rfl

theorem runLoop_no_intro : ∀ (levels : List StageId) (script : List IterInput)
    (p : Player) (st : StoreState) (log : List LogEntry) (bc : Choice)
    (bd : ℚ) (la : Bool),
    Eff.ranIntro ∉ (runLoop levels script p st log bc bd la).effects := by
  intro levels
  induction levels with
  | nil =>
      intro script p st log bc bd la
      simp only [runLoop, finishRun]
      split_ifs <;> simp
  | cons s rest ih =>
      intro script p st log bc bd la
      simp only [runLoop]
      split_ifs <;> (try split) <;>
        simp [List.mem_append, ih]

theorem runLoop_aborted : ∀ (levels : List StageId) (script : List IterInput)
    (p : Player) (st : StoreState) (log : List LogEntry) (bc : Choice)
    (bd : ℚ) (la : Bool),
    (runLoop levels script p st log bc bd la).outcome = .aborted →
      (runLoop levels script p st log bc bd la).log = log ∧
      Eff.appended ∉ (runLoop levels script p st log bc bd la).effects ∧
      Eff.deleted ∉ (runLoop levels script p st log bc bd la).effects := by
  intro levels
  induction levels with
  | nil =>
      intro script p st log bc bd la
      simp only [runLoop, finishRun]
      split_ifs <;> intro hab <;> simp_all
  | cons s rest ih =>
      intro script p st log bc bd la
      simp only [runLoop]
      split_ifs <;> (try split) <;> intro hab <;>
        (try exact ⟨rfl, by simp, by simp⟩)
      all_goals (
        obtain ⟨h1, h2, h3⟩ := ih _ _ _ _ _ _ _ hab
        refine ⟨h1, ?_, ?_⟩)
      all_goals simp
      all_goals (first | (simpa using h2) | (simpa using h3))

theorem runLoop_states : ∀ (levels : List StageId) (script : List IterInput)
    (p : Player) (st : StoreState) (log : List LogEntry) (bc : Choice)
    (bd : ℚ) (la : Bool), 1 ≤ p.hp → p.hp ≤ 3 → StInv st →
    ∀ q ∈ (runLoop levels script p st log bc bd la).states,
      0 ≤ q.hp ∧ q.hp ≤ 3 := by
  intro levels
  induction levels with
  | nil =>
      intro script p st log bc bd la h1 h3 hst q hq
      simp only [runLoop, finishRun] at hq
      split_ifs at hq <;> simp only [List.mem_singleton] at hq <;>
        rw [hq, boss_final_keeps_hp] <;> omega
  | cons s rest ih =>
      intro script p st log bc bd la h1 h3 hst q hq
      have hrl := runLevel_hp_bounds s p (script.headD defaultIter).choice
        (script.headD defaultIter).draw
      have hst1 : StInv (if (script.headD defaultIter).saveAns then
          (save_checkpoint p true st).2 else st) := by
        split_ifs
        · exact StInv_save p st h1 h3
        · exact hst
      simp only [runLoop] at hq
      by_cases hhp : (runLevel s p (script.headD defaultIter).choice
          (script.headD defaultIter).draw).hp ≤ 0
      · rw [if_pos hhp] at hq
        by_cases hrel : (script.headD defaultIter).reloadAns
        · rw [if_pos hrel] at hq
          rcases hld : load_checkpoint (if (script.headD defaultIter).saveAns
              then (save_checkpoint p true st).2 else st) with _ | q2 <;>
            rw [hld] at hq
          · simp only [List.mem_singleton] at hq
            rw [hq]
            omega
          · have hq2 := load_bounds _ _ hst1 hld
            simp only [List.cons_append, List.nil_append, List.mem_cons] at hq
            rcases hq with rfl | rfl | hq
            · omega
            · omega
            · exact ih _ _ _ _ _ _ _ hq2.1 hq2.2 hst1 q hq
        · rw [if_neg hrel] at hq
          simp only [List.mem_singleton] at hq
          rw [hq]
          omega
      · rw [if_neg hhp] at hq
        simp only [List.cons_append, List.nil_append, List.mem_cons] at hq
        rcases hq with rfl | hq
        · omega
        · exact ih _ _ _ _ _ _ _ (by omega) (by omega) hst1 q hq

theorem runLoop_cons_head (s : StageId) (rest : List StageId)
    (script : List IterInput) (p : Player) (st : StoreState)
    (log : List LogEntry) (bc : Choice) (bd : ℚ) (la : Bool) :
    (runLoop (s :: rest) script p st log bc bd la).levelsRan.head? = some s := by
  simp only [runLoop, RunResult.levelsRan]
  split_ifs <;> (try split) <;> simp

theorem introEffs_cases (st0 : StoreState) (tryLoad : Bool)
    (name lang : String) :
    introEffs st0 tryLoad name lang = [Eff.ranIntro] ∨
    introEffs st0 tryLoad name lang = [] := by
  unfold introEffs
  split_ifs <;> simp

theorem intro_mem_introEffs (st0 : StoreState) (tryLoad : Bool)
    (name lang : String) :
    Eff.ranIntro ∈ introEffs st0 tryLoad name lang ↔
      (initialPlayer st0 tryLoad name lang).stage = 0 := by
  unfold introEffs
  split_ifs with h <;> simp [h]

/-- C1: the claim that a run reaching the Ended state resolves each of the
five stages exactly once, with a single Boss resolution, is contradicted
by the code: `boss_final` is both the fifth element of the `levels` list
and called again after the loop, so a completed run resolves the Boss
stage twice (the first result is discarded), consuming two draws. Here a
concrete completed run executes the scene sequence Town, Desert, Lab,
Forest, Boss, Boss. -/
theorem C1_boss_resolved_twice :
    (runMain .absent false "Ana" "en" .c2 c1Script .c1 (9/10) false []).levelsRan
      = [.town, .desert, .lab, .forest, .boss, .boss] ∧
    (runMain .absent false "Ana" "en" .c2 c1Script .c1 (9/10) false []).outcome
      = .ended "victory_force" := by
  simp [runMain, runLoop, finishRun, runLevel, level_town, level_desert,
    level_lab, level_forest, boss_final, boss_final_score, boss_char_mod,
    boss_inventory_bonus, townLuckBonus, charIn, initialPlayer, introPlayer,
    introEffs, levelsList, c1Script, load_checkpoint, save_checkpoint,
    Player.init, RunResult.levelsRan, defaultIter, List.replicate, charOf,
    append_result, ratTrunc]
  try norm_num
  try simp
  try norm_num
  try simp
  try norm_num
  try simp
  try norm_num

/-- C3: the claim that a run resumed from a stored checkpoint continues at
the stage recorded in the restored record is false: loading a checkpoint
recorded at stage 3 (the Lab scene), the machine still executes Town
first, not Lab. -/
theorem C3_counterexample :
    (runMain (.valid pStage3.to_dict) true "x" "en" .c1 c1Script .c1 0 false
      []).levelsRan.head? = some StageId.town ∧
    ¬ (runMain (.valid pStage3.to_dict) true "x" "en" .c1 c1Script .c1 0 false
      []).levelsRan.head? = some StageId.lab := by
  simp [runMain, runLoop, finishRun, runLevel, level_town, level_desert,
    level_lab, level_forest, boss_final, boss_final_score, boss_char_mod,
    boss_inventory_bonus, townLuckBonus, charIn, initialPlayer, introPlayer,
    introEffs, levelsList, c1Script, load_checkpoint, save_checkpoint,
    Player.init, RunResult.levelsRan, defaultIter, List.replicate, charOf,
    append_result, ratTrunc, pStage3, Player.to_dict, Player.from_dict]
  try norm_num
  try simp
  try norm_num
  try simp
  try norm_num
  try simp
  try norm_num

/-- C3 amended: the restored record's `stage` field only determines
whether the Intro scene runs (it runs exactly when the starting player is
at stage 0, be it fresh or restored); the stage sequence itself always
begins at Town regardless of the recorded stage. -/
theorem C3_resume_restarts_at_town (st0 : StoreState) (tryLoad : Bool)
    (name lang : String) (ic : Choice) (script : List IterInput) (bc : Choice)
    (bd : ℚ) (la : Bool) (log0 : List LogEntry) :
    (Eff.ranIntro ∈ (runMain st0 tryLoad name lang ic script bc bd la log0).effects
      ↔ (initialPlayer st0 tryLoad name lang).stage = 0) ∧
    (runMain st0 tryLoad name lang ic script bc bd la log0).levelsRan.head?
      = some StageId.town := by
  constructor
  · simp only [runMain]
    rw [List.mem_append]
    have hno := runLoop_no_intro levelsList script
      (introPlayer st0 tryLoad name lang ic) st0 log0 bc bd la
    simp [hno, intro_mem_introEffs]
  · simp only [runMain, RunResult.levelsRan]
    rw [List.filterMap_append]
    have hie : (introEffs st0 tryLoad name lang).filterMap (fun e =>
        match e with | Eff.ranLevel s => some s | _ => none) = [] := by
      rcases introEffs_cases st0 tryLoad name lang with h | h <;> rw [h] <;> simp
    rw [hie]
    simp only [List.nil_append]
    have := runLoop_cons_head .town [.desert, .lab, .forest, .boss] script
      (introPlayer st0 tryLoad name lang ic) st0 log0 bc bd la
    simpa [RunResult.levelsRan, levelsList] using this

/-- C3 witness: the amended property evaluated at a run resuming from the
stage-3 checkpoint. -/
theorem C3_resume_restarts_at_town_witness :
    (Eff.ranIntro ∈ (runMain (.valid pStage3.to_dict) true "x" "en" .c1 []
      .c1 0 false []).effects
      ↔ (initialPlayer (.valid pStage3.to_dict) true "x" "en").stage = 0) ∧
    (runMain (.valid pStage3.to_dict) true "x" "en" .c1 [] .c1 0 false
      []).levelsRan.head? = some StageId.town :=
  C3_resume_restarts_at_town (.valid pStage3.to_dict) true "x" "en" .c1 []
    .c1 0 false []

/-- C8: a run that terminates on the hit-point-exhaustion path with the
reload declined (the Aborted outcome) leaves the results log exactly as it
was and never performs an append or a checkpoint-file deletion. -/
theorem C8_abort_preserves (st0 : StoreState) (tryLoad : Bool)
    (name lang : String) (ic : Choice) (script : List IterInput) (bc : Choice)
    (bd : ℚ) (la : Bool) (log0 : List LogEntry)
    (hab : (runMain st0 tryLoad name lang ic script bc bd la log0).outcome
      = .aborted) :
    (runMain st0 tryLoad name lang ic script bc bd la log0).log = log0 ∧
    Eff.appended ∉ (runMain st0 tryLoad name lang ic script bc bd la log0).effects ∧
    Eff.deleted ∉ (runMain st0 tryLoad name lang ic script bc bd la log0).effects := by
  simp only [runMain] at hab ⊢
  obtain ⟨h1, h2, h3⟩ := runLoop_aborted levelsList script
    (introPlayer st0 tryLoad name lang ic) st0 log0 bc bd la hab
  refine ⟨h1, ?_, ?_⟩ <;>
    rw [List.mem_append] <;>
    rcases introEffs_cases st0 tryLoad name lang with h | h <;>
    simp [h, h2, h3]

/-- C8 witness: a concrete aborted run (a Warrior failing the first three
scenes with draw 0 and declining the reload) leaves the empty log empty
and records no append and no deletion. -/
theorem C8_abort_preserves_witness :
    (runMain .absent false "Ana" "en" .c2 abortScript .c1 0 false []).log = [] ∧
    Eff.appended ∉ (runMain .absent false "Ana" "en" .c2 abortScript .c1 0
      false []).effects ∧
    Eff.deleted ∉ (runMain .absent false "Ana" "en" .c2 abortScript .c1 0
      false []).effects :=
  C8_abort_preserves .absent false "Ana" "en" .c2 abortScript .c1 0 false []
    (by
      simp [runMain, runLoop, finishRun, runLevel, level_town, level_desert,
        level_lab, level_forest, boss_final, boss_final_score, boss_char_mod,
        boss_inventory_bonus, townLuckBonus, charIn, initialPlayer, introPlayer,
        introEffs, levelsList, abortScript, load_checkpoint, save_checkpoint,
        Player.init, defaultIter, List.replicate, charOf, append_result, ratTrunc]
      try norm_num
      try simp
      try norm_num
      try simp
      try norm_num)

/-- C10: every stage resolution changes hit points by at most one
downwards, and in every run started with no pre-existing checkpoint (hence
from a fresh record with hp 3), every player state reached — initial, after
each scene, after each reload — has hit points between 0 and 3. -/
theorem C10_hp_bounds :
    (∀ (s : StageId) (p : Player) (c : Choice) (d : ℚ),
      p.hp - 1 ≤ (runLevel s p c d).hp ∧ (runLevel s p c d).hp ≤ p.hp) ∧
    ∀ (tryLoad : Bool) (name lang : String) (ic : Choice)
      (script : List IterInput) (bc : Choice) (bd : ℚ) (la : Bool)
      (log0 : List LogEntry) (q : Player),
      q ∈ (runMain .absent tryLoad name lang ic script bc bd la log0).states →
      0 ≤ q.hp ∧ q.hp ≤ 3 := by
  constructor
  · exact runLevel_hp_bounds
  · intro tryLoad name lang ic script bc bd la log0 q hq
    have hip : (introPlayer .absent tryLoad name lang ic).hp = 3 := by
      simp only [introPlayer, initialPlayer, load_checkpoint]
      split_ifs <;> simp_all [Player.init]
    simp only [runMain, List.mem_cons] at hq
    rcases hq with rfl | hq
    · omega
    · exact runLoop_states levelsList script _ .absent log0 bc bd la
        (by omega) (by omega) (fun d hd => by cases hd) q hq

/-- C10 witness: the hp bounds evaluated at the initial state of a fresh
run. -/
theorem C10_hp_bounds_witness :
    0 ≤ (introPlayer .absent false "A" "en" .c2).hp ∧
    (introPlayer .absent false "A" "en" .c2).hp ≤ 3 :=
  C10_hp_bounds.2 false "A" "en" .c2 [] .c1 0 false []
    (introPlayer .absent false "A" "en" .c2)
    (by simp [runMain])

end SurviveOrDie
